import Mathlib

/-!
Verification of the exit-management core of the kriptobot repository.

The definitions below are shallow embeddings of the Python source:
* `src/position_manager.py` — the percentage-step trailing-stop manager
  (`PositionManager`);
* `src/trading_strategy.py` — the staged take-profit manager (`TPManager`),
  the risk gate (`RiskManager`), and the signal pipeline
  (`TradingStrategy.process_telegram_signal`);
* `src/config.py` — the `TP_PERCENTAGES` configuration.

Python floats are modelled as rationals (`ℚ`); machine-float rounding plays
no role in any of the properties below.  Exchange calls
(`set_trading_stop`, `close_partial`, `move_stop_to_entry`) are modelled by
recording the arguments the code passes to them, together with a boolean
oracle for the success flag the code reads back.  A Python crash
(`ZeroDivisionError`) is modelled as `Option.none`.
-/

namespace Kriptobot

/-! ### src/position_manager.py -/

/-- Bybit position side, the `side` string of a position dict:
`'Buy'` is a LONG position, `'Sell'` a SHORT one. -/
inductive Side
  | Buy
  | Sell
deriving DecidableEq, Repr

/-- One value of `PositionManager.positions_state` (built in
`initialize_position_state`, lines 27-42). -/
structure PosRecord where
  symbol : String
  side : Side
  entry_price : ℚ
  original_size : ℚ
  current_sl_level : ℤ
  highest_pnl_percent : ℚ
deriving DecidableEq, Repr

/-- `PositionManager.calculate_pnl_percent` (lines 44-52).  The Python
function never raises: it returns `0` when `entry_price == 0` and applies
the side formula otherwise. -/
def calculate_pnl_percent (entry_price current_price : ℚ) (side : Side) : ℚ :=
  if entry_price = 0 then 0
  else
    match side with
    | .Buy => (current_price - entry_price) / entry_price * 100
    | .Sell => (entry_price - current_price) / entry_price * 100

/-- `PositionManager.calculate_sl_price` (lines 54-60). -/
def calculate_sl_price (entry_price sl_level : ℚ) (side : Side) : ℚ :=
  match side with
  | .Buy => entry_price * (1 + sl_level / 100)
  | .Sell => entry_price * (1 - sl_level / 100)

/-- Lines 106-109 of `check_positions`:
`target_sl_level = (int(pnl_percent // trailing_step)) * trailing_step`
followed by `target_sl_level = max(0, target_sl_level)`.  (`//` on Python
floats is floor division, and `int` of the already-floored value is exact.) -/
def target_sl_level (pnl_percent : ℚ) (trailing_step : ℤ) : ℤ :=
  max 0 (⌊pnl_percent / (trailing_step : ℚ)⌋ * trailing_step)

/-- Result of processing one position in one `check_positions` cycle:
the updated state record plus the stop prices passed to
`update_stop_loss` during the cycle, in call order.  (`update_stop_loss`
forwards `round(price, 4)` to the exchange; the rounding happens at the
API boundary and is not part of the tracked state.) -/
structure CheckResult where
  state : PosRecord
  stops : List ℚ
deriving DecidableEq, Repr

/-- The body of the `for pos in positions` loop of
`PositionManager.check_positions` (lines 82-147) for a single position,
given its already-initialized state record, the current mark price, and
the success flag `ok` returned by `update_stop_loss` for the level-raising
call (line 143; the success flag of the break-even call on line 129 is
ignored by the source).  `trailing_step` is `self.trailing_step`
(`20` in `__init__`). -/
def check_position_step (trailing_step : ℤ) (st : PosRecord)
    (current_price : ℚ) (ok : Bool) : CheckResult :=
  if current_price = 0 then ⟨st, []⟩
  else if st.entry_price = 0 then ⟨st, []⟩
  else
    let pnl := calculate_pnl_percent st.entry_price current_price st.side
    let st1 := { st with highest_pnl_percent := max st.highest_pnl_percent pnl }
    let target := target_sl_level pnl trailing_step
    if target > st.current_sl_level ∧ pnl ≥ (trailing_step : ℚ) then
      let new_sl_price := calculate_sl_price st.entry_price (target : ℚ) st.side
      -- lines 120-131: first pull the stop to break-even (entry) when the
      -- stored level is still 0; the source then re-assigns level 0.
      let pre : List ℚ :=
        if st.current_sl_level = 0 ∧ target ≥ trailing_step then
          [calculate_sl_price st.entry_price 0 st.side]
        else []
      -- lines 134-147: set the real level; the stored level is raised only
      -- when `update_stop_loss` reports success.
      if 0 < target then
        ⟨{ st1 with current_sl_level := if ok then target else st1.current_sl_level },
          pre ++ [new_sl_price]⟩
      else ⟨st1, pre⟩
    else ⟨st1, []⟩

/-- Iterated `check_positions` cycles for one tracked position: fold the
per-cycle step over a list of `(mark price, update success)` observations. -/
def run_polls (trailing_step : ℤ) (st : PosRecord)
    (polls : List (ℚ × Bool)) : PosRecord :=
  polls.foldl (fun s p => (check_position_step trailing_step s p.1 p.2).state) st

/-! Basic step lemmas for the trailing-stop state machine. -/

theorem check_position_step_entry_side (trailing_step : ℤ) (st : PosRecord)
    (p : ℚ) (ok : Bool) :
    (check_position_step trailing_step st p ok).state.entry_price = st.entry_price ∧
    (check_position_step trailing_step st p ok).state.side = st.side := by
  by_cases hp : p = 0
  · simp [check_position_step, hp]
  by_cases he : st.entry_price = 0
  · simp [check_position_step, hp, he]
  by_cases hact : target_sl_level (calculate_pnl_percent st.entry_price p st.side) trailing_step >
      st.current_sl_level ∧
      calculate_pnl_percent st.entry_price p st.side ≥ (trailing_step : ℚ)
  · by_cases hpos :
        0 < target_sl_level (calculate_pnl_percent st.entry_price p st.side) trailing_step <;>
      cases ok <;> simp [check_position_step, hp, he, hact, hpos]
  · simp [check_position_step, hp, he, hact]

theorem check_position_step_level_mono (trailing_step : ℤ) (st : PosRecord)
    (p : ℚ) (ok : Bool) :
    st.current_sl_level ≤ (check_position_step trailing_step st p ok).state.current_sl_level := by
  by_cases hp : p = 0
  · simp [check_position_step, hp]
  by_cases he : st.entry_price = 0
  · simp [check_position_step, hp, he]
  by_cases hact : target_sl_level (calculate_pnl_percent st.entry_price p st.side) trailing_step >
      st.current_sl_level ∧
      calculate_pnl_percent st.entry_price p st.side ≥ (trailing_step : ℚ)
  · by_cases hpos :
        0 < target_sl_level (calculate_pnl_percent st.entry_price p st.side) trailing_step <;>
      cases ok <;> simp [check_position_step, hp, he, hact, hpos]
    exact le_of_lt hact.1
  · simp [check_position_step, hp, he, hact]

theorem run_polls_entry_side (trailing_step : ℤ) (st : PosRecord)
    (polls : List (ℚ × Bool)) :
    (run_polls trailing_step st polls).entry_price = st.entry_price ∧
    (run_polls trailing_step st polls).side = st.side := by
  induction polls generalizing st with
  | nil => simp [run_polls]
  | cons p ps ih =>
    have h := check_position_step_entry_side trailing_step st p.1 p.2
    have h' := ih (check_position_step trailing_step st p.1 p.2).state
    simp only [run_polls, List.foldl_cons] at h' ⊢
    exact ⟨h'.1.trans h.1, h'.2.trans h.2⟩

theorem run_polls_level_mono (trailing_step : ℤ) (st : PosRecord)
    (polls : List (ℚ × Bool)) :
    st.current_sl_level ≤ (run_polls trailing_step st polls).current_sl_level := by
  induction polls generalizing st with
  | nil => simp [run_polls]
  | cons p ps ih =>
    have h := check_position_step_level_mono trailing_step st p.1 p.2
    have h' := ih (check_position_step trailing_step st p.1 p.2).state
    simp only [run_polls, List.foldl_cons] at h' ⊢
    exact h.trans h'

theorem target_sl_level_ge (pnl : ℚ) (step : ℤ) (hstep : 0 < step)
    (h : (step : ℚ) ≤ pnl) : step ≤ target_sl_level pnl step := by
  have hq : (0 : ℚ) < (step : ℚ) := by exact_mod_cast hstep
  have h1 : (1 : ℚ) ≤ pnl / (step : ℚ) := (one_le_div hq).mpr h
  have h2 : (1 : ℤ) ≤ ⌊pnl / (step : ℚ)⌋ := Int.le_floor.mpr (by exact_mod_cast h1)
  have h3 : step ≤ ⌊pnl / (step : ℚ)⌋ * step :=
    le_mul_of_one_le_left (le_of_lt hstep) h2
  exact le_max_of_le_right h3

theorem target_sl_level_pos_imp (pnl : ℚ) (step : ℤ) (hstep : 0 < step)
    (h : 0 < target_sl_level pnl step) : (step : ℚ) ≤ pnl := by
  unfold target_sl_level at h
  have h0 : 0 < ⌊pnl / (step : ℚ)⌋ * step := by
    rcases lt_max_iff.mp h with h' | h'
    · exact absurd h' (lt_irrefl 0)
    · exact h'
  have hf : 1 ≤ ⌊pnl / (step : ℚ)⌋ := by nlinarith
  have hq : (0 : ℚ) < (step : ℚ) := by exact_mod_cast hstep
  have h1 : (1 : ℚ) ≤ pnl / (step : ℚ) := by exact_mod_cast Int.le_floor.mp hf
  exact (one_le_div hq).mp h1

theorem calculate_sl_price_mono_buy (entry : ℚ) (hentry : 0 ≤ entry)
    (l1 l2 : ℚ) (h : l1 ≤ l2) :
    calculate_sl_price entry l1 Side.Buy ≤ calculate_sl_price entry l2 Side.Buy := by
  unfold calculate_sl_price
  have h' : 1 + l1 / 100 ≤ 1 + l2 / 100 := by linarith
  exact mul_le_mul_of_nonneg_left h' hentry

theorem calculate_sl_price_anti_sell (entry : ℚ) (hentry : 0 ≤ entry)
    (l1 l2 : ℚ) (h : l1 ≤ l2) :
    calculate_sl_price entry l2 Side.Sell ≤ calculate_sl_price entry l1 Side.Sell := by
  unfold calculate_sl_price
  have h' : 1 - l2 / 100 ≤ 1 - l1 / 100 := by linarith
  exact mul_le_mul_of_nonneg_left h' hentry

/-- C1: for every sequence of mark-price observations processed by
`check_positions` for a single position, the stored stop level never
decreases, the entry price and side of the record are never changed, and
therefore the stop price derived from the stored level
(`calculate_sl_price`) is non-decreasing over time for a LONG (`Buy`)
position and non-increasing for a SHORT (`Sell`) position; in particular
no transition reduces the stop price (instantiate `polls` with a single
observation). -/
theorem trailing_stop_price_monotone (trailing_step : ℤ) (st : PosRecord)
    (polls : List (ℚ × Bool)) (hentry : 0 ≤ st.entry_price) :
    st.current_sl_level ≤ (run_polls trailing_step st polls).current_sl_level ∧
    (run_polls trailing_step st polls).entry_price = st.entry_price ∧
    (run_polls trailing_step st polls).side = st.side ∧
    (st.side = Side.Buy →
      calculate_sl_price st.entry_price (st.current_sl_level : ℚ) st.side ≤
        calculate_sl_price (run_polls trailing_step st polls).entry_price
          ((run_polls trailing_step st polls).current_sl_level : ℚ)
          (run_polls trailing_step st polls).side) ∧
    (st.side = Side.Sell →
      calculate_sl_price (run_polls trailing_step st polls).entry_price
          ((run_polls trailing_step st polls).current_sl_level : ℚ)
          (run_polls trailing_step st polls).side ≤
        calculate_sl_price st.entry_price (st.current_sl_level : ℚ) st.side) := by
  have hmono := run_polls_level_mono trailing_step st polls
  have hes := run_polls_entry_side trailing_step st polls
  have hcast : ((st.current_sl_level : ℚ)) ≤
      (((run_polls trailing_step st polls).current_sl_level : ℚ)) := by
    exact_mod_cast hmono
  refine ⟨hmono, hes.1, hes.2, ?_, ?_⟩
  · intro hbuy
    rw [hes.1, hes.2, hbuy]
    exact calculate_sl_price_mono_buy st.entry_price hentry _ _ hcast
  · intro hsell
    rw [hes.1, hes.2, hsell]
    exact calculate_sl_price_anti_sell st.entry_price hentry _ _ hcast

/-- Witness for C1: a concrete LONG position (entry 100, level 0) run
through the mark-price observations 121 then 141. -/
theorem trailing_stop_price_monotone_witness :
    0 ≤ (⟨"BTCUSDT", Side.Buy, 100, 1, 0, 0⟩ : PosRecord).entry_price ∧
    ((⟨"BTCUSDT", Side.Buy, 100, 1, 0, 0⟩ : PosRecord).current_sl_level ≤
      (run_polls 20 ⟨"BTCUSDT", Side.Buy, 100, 1, 0, 0⟩
        [(121, true), (141, true)]).current_sl_level ∧
    (run_polls 20 ⟨"BTCUSDT", Side.Buy, 100, 1, 0, 0⟩
        [(121, true), (141, true)]).entry_price =
      (⟨"BTCUSDT", Side.Buy, 100, 1, 0, 0⟩ : PosRecord).entry_price ∧
    (run_polls 20 ⟨"BTCUSDT", Side.Buy, 100, 1, 0, 0⟩
        [(121, true), (141, true)]).side =
      (⟨"BTCUSDT", Side.Buy, 100, 1, 0, 0⟩ : PosRecord).side ∧
    ((⟨"BTCUSDT", Side.Buy, 100, 1, 0, 0⟩ : PosRecord).side = Side.Buy →
      calculate_sl_price (⟨"BTCUSDT", Side.Buy, 100, 1, 0, 0⟩ : PosRecord).entry_price
          ((⟨"BTCUSDT", Side.Buy, 100, 1, 0, 0⟩ : PosRecord).current_sl_level : ℚ)
          (⟨"BTCUSDT", Side.Buy, 100, 1, 0, 0⟩ : PosRecord).side ≤
        calculate_sl_price
          (run_polls 20 ⟨"BTCUSDT", Side.Buy, 100, 1, 0, 0⟩
            [(121, true), (141, true)]).entry_price
          ((run_polls 20 ⟨"BTCUSDT", Side.Buy, 100, 1, 0, 0⟩
            [(121, true), (141, true)]).current_sl_level : ℚ)
          (run_polls 20 ⟨"BTCUSDT", Side.Buy, 100, 1, 0, 0⟩
            [(121, true), (141, true)]).side) ∧
    ((⟨"BTCUSDT", Side.Buy, 100, 1, 0, 0⟩ : PosRecord).side = Side.Sell →
      calculate_sl_price
          (run_polls 20 ⟨"BTCUSDT", Side.Buy, 100, 1, 0, 0⟩
            [(121, true), (141, true)]).entry_price
          ((run_polls 20 ⟨"BTCUSDT", Side.Buy, 100, 1, 0, 0⟩
            [(121, true), (141, true)]).current_sl_level : ℚ)
          (run_polls 20 ⟨"BTCUSDT", Side.Buy, 100, 1, 0, 0⟩
            [(121, true), (141, true)]).side ≤
        calculate_sl_price (⟨"BTCUSDT", Side.Buy, 100, 1, 0, 0⟩ : PosRecord).entry_price
          ((⟨"BTCUSDT", Side.Buy, 100, 1, 0, 0⟩ : PosRecord).current_sl_level : ℚ)
          (⟨"BTCUSDT", Side.Buy, 100, 1, 0, 0⟩ : PosRecord).side)) :=
  ⟨by norm_num,
   trailing_stop_price_monotone 20 ⟨"BTCUSDT", Side.Buy, 100, 1, 0, 0⟩
     [(121, true), (141, true)] (by norm_num)⟩

/-- Characterization of one `check_positions` cycle in the actionable case
(`target_sl_level` above the stored level and `pnl_percent` at least one
step): the stop is pulled to break-even first when the stored level is
still 0, then set to the target level's price, and the stored level is
raised exactly when `update_stop_loss` reports success. -/
theorem check_position_step_action (trailing_step : ℤ) (st : PosRecord)
    (price : ℚ) (ok : Bool) (hp : ¬ price = 0) (he : ¬ st.entry_price = 0)
    (hact : target_sl_level (calculate_pnl_percent st.entry_price price st.side)
        trailing_step > st.current_sl_level ∧
      calculate_pnl_percent st.entry_price price st.side ≥ (trailing_step : ℚ))
    (hpos : 0 < target_sl_level (calculate_pnl_percent st.entry_price price st.side)
        trailing_step) :
    check_position_step trailing_step st price ok =
      ⟨{ st with
          current_sl_level :=
            if ok then
              target_sl_level (calculate_pnl_percent st.entry_price price st.side)
                trailing_step
            else st.current_sl_level,
          highest_pnl_percent :=
            max st.highest_pnl_percent
              (calculate_pnl_percent st.entry_price price st.side) },
        (if st.current_sl_level = 0 ∧
            target_sl_level (calculate_pnl_percent st.entry_price price st.side)
              trailing_step ≥ trailing_step then
          [calculate_sl_price st.entry_price 0 st.side]
        else []) ++
        [calculate_sl_price st.entry_price
          ((target_sl_level (calculate_pnl_percent st.entry_price price st.side)
            trailing_step : ℤ) : ℚ) st.side]⟩ := by
  simp only [check_position_step, if_neg hp, if_neg he]
  rw [if_pos hact, if_pos hpos]

/-- Characterization of one `check_positions` cycle in the non-actionable
case: only the highest-P&L watermark is refreshed; no stop mutation is
issued and the stored level is untouched. -/
theorem check_position_step_no_action (trailing_step : ℤ) (st : PosRecord)
    (price : ℚ) (ok : Bool) (hp : ¬ price = 0) (he : ¬ st.entry_price = 0)
    (hact : ¬ (target_sl_level (calculate_pnl_percent st.entry_price price st.side)
        trailing_step > st.current_sl_level ∧
      calculate_pnl_percent st.entry_price price st.side ≥ (trailing_step : ℚ))) :
    check_position_step trailing_step st price ok =
      ⟨{ st with
          highest_pnl_percent :=
            max st.highest_pnl_percent
              (calculate_pnl_percent st.entry_price price st.side) }, []⟩ := by
  simp only [check_position_step, if_neg hp, if_neg he]
  rw [if_neg hact]

/-- Spec §4.2 wording, for comparison with the code:
`candidate = floor(pnl_percent / step_size) * step_size`, clamped to ≥ 0. -/
def spec_candidate (pnl_percent : ℚ) (step_size : ℤ) : ℤ :=
  max 0 (⌊pnl_percent / (step_size : ℚ)⌋ * step_size)

/-- Spec §4.2 wording, for comparison with the code:
`new_level = max(current_level, candidate)`. -/
def spec_new_level (current_level : ℤ) (pnl_percent : ℚ) (step_size : ℤ) : ℤ :=
  max current_level (spec_candidate pnl_percent step_size)

/-- C2: on each poll the candidate level equals
`floor(pnl_percent / step) * step` clamped to be ≥ 0 (the code's
`target_sl_level`), the stored level after a successful cycle equals
`max(current_level, candidate)`, a stop-loss mutation (a call to
`update_stop_loss`) is issued exactly when `new_level > current_level` and
`pnl_percent ≥ step`, and a `pnl_percent` below one step (in particular a
negative one) leaves the stored level untouched and issues no mutation. -/
theorem trailing_exit_level_policy (trailing_step : ℤ) (st : PosRecord)
    (price : ℚ) (ok : Bool) (hstep : 0 < trailing_step) (hp : price ≠ 0)
    (he : st.entry_price ≠ 0) (hcur : 0 ≤ st.current_sl_level) :
    spec_candidate (calculate_pnl_percent st.entry_price price st.side)
        trailing_step =
      target_sl_level (calculate_pnl_percent st.entry_price price st.side)
        trailing_step ∧
    ((check_position_step trailing_step st price ok).stops ≠ [] ↔
      (spec_new_level st.current_sl_level
          (calculate_pnl_percent st.entry_price price st.side) trailing_step >
        st.current_sl_level ∧
        calculate_pnl_percent st.entry_price price st.side ≥ (trailing_step : ℚ))) ∧
    (check_position_step trailing_step st price true).state.current_sl_level =
      spec_new_level st.current_sl_level
        (calculate_pnl_percent st.entry_price price st.side) trailing_step ∧
    (calculate_pnl_percent st.entry_price price st.side < (trailing_step : ℚ) →
      (check_position_step trailing_step st price ok).stops = [] ∧
      (check_position_step trailing_step st price ok).state.current_sl_level =
        st.current_sl_level) := by
  set pnl := calculate_pnl_percent st.entry_price price st.side with hpnl
  have hcand : spec_candidate pnl trailing_step = target_sl_level pnl trailing_step :=
    rfl
  have hmax : spec_new_level st.current_sl_level pnl trailing_step >
      st.current_sl_level ↔
      target_sl_level pnl trailing_step > st.current_sl_level := by
    unfold spec_new_level
    rw [hcand]
    constructor
    · intro h
      rcases lt_max_iff.mp h with h' | h'
      · exact absurd h' (lt_irrefl _)
      · exact h'
    · intro h
      exact lt_max_iff.mpr (Or.inr h)
  refine ⟨hcand, ?_, ?_, ?_⟩
  · by_cases hact : target_sl_level pnl trailing_step > st.current_sl_level ∧
        pnl ≥ (trailing_step : ℚ)
    · have hpos : 0 < target_sl_level pnl trailing_step :=
        lt_of_le_of_lt hcur hact.1
      rw [check_position_step_action trailing_step st price ok hp he hact hpos]
      simp only [ne_eq]
      constructor
      · intro _
        exact ⟨hmax.mpr hact.1, hact.2⟩
      · intro _
        simp
    · rw [check_position_step_no_action trailing_step st price ok hp he hact]
      simp only [ne_eq, not_true_eq_false, iff_false]
      constructor
      · simp
      · intro hcontr
        exact absurd ⟨hmax.mp hcontr.1, hcontr.2⟩ hact
  · by_cases hact : target_sl_level pnl trailing_step > st.current_sl_level ∧
        pnl ≥ (trailing_step : ℚ)
    · have hpos : 0 < target_sl_level pnl trailing_step :=
        lt_of_le_of_lt hcur hact.1
      rw [check_position_step_action trailing_step st price true hp he hact hpos]
      unfold spec_new_level
      rw [hcand]
      simp only [if_pos rfl]
      exact (max_eq_right (le_of_lt hact.1)).symm
    · rw [check_position_step_no_action trailing_step st price true hp he hact]
      unfold spec_new_level
      rw [hcand]
      rcases not_and_or.mp hact with h' | h'
      · push_neg at h'
        simp [max_eq_left h']
      · push_neg at h'
        have hnpos : ¬ 0 < target_sl_level pnl trailing_step := by
          intro hpos
          exact absurd (target_sl_level_pos_imp pnl trailing_step hstep hpos)
            (not_le.mpr h')
        push_neg at hnpos
        have hle : target_sl_level pnl trailing_step ≤ st.current_sl_level :=
          le_trans hnpos hcur
        simp [max_eq_left hle]
  · intro hlt
    have hact : ¬ (target_sl_level pnl trailing_step > st.current_sl_level ∧
        pnl ≥ (trailing_step : ℚ)) := by
      intro h
      exact absurd h.2 (not_le.mpr hlt)
    rw [check_position_step_no_action trailing_step st price ok hp he hact]
    simp

/-- Witness for C2: a LONG position at entry 100, stored level 0, polled at
mark price 121 (P&L 21%), with step 20. -/
theorem trailing_exit_level_policy_witness :
    ((0 : ℤ) < 20 ∧ (121 : ℚ) ≠ 0 ∧
      (⟨"BTCUSDT", Side.Buy, 100, 1, 0, 0⟩ : PosRecord).entry_price ≠ 0 ∧
      (0 : ℤ) ≤ (⟨"BTCUSDT", Side.Buy, 100, 1, 0, 0⟩ : PosRecord).current_sl_level) ∧
    (spec_candidate (calculate_pnl_percent 100 121 Side.Buy) 20 =
      target_sl_level (calculate_pnl_percent 100 121 Side.Buy) 20 ∧
    ((check_position_step 20 ⟨"BTCUSDT", Side.Buy, 100, 1, 0, 0⟩ 121 true).stops ≠ [] ↔
      (spec_new_level 0 (calculate_pnl_percent 100 121 Side.Buy) 20 > 0 ∧
        calculate_pnl_percent 100 121 Side.Buy ≥ ((20 : ℤ) : ℚ))) ∧
    (check_position_step 20 ⟨"BTCUSDT", Side.Buy, 100, 1, 0, 0⟩ 121
        true).state.current_sl_level =
      spec_new_level 0 (calculate_pnl_percent 100 121 Side.Buy) 20 ∧
    (calculate_pnl_percent 100 121 Side.Buy < ((20 : ℤ) : ℚ) →
      (check_position_step 20 ⟨"BTCUSDT", Side.Buy, 100, 1, 0, 0⟩ 121 true).stops = [] ∧
      (check_position_step 20 ⟨"BTCUSDT", Side.Buy, 100, 1, 0, 0⟩ 121
        true).state.current_sl_level = 0)) :=
  ⟨⟨by norm_num, by norm_num, by norm_num, by norm_num⟩,
    trailing_exit_level_policy 20 ⟨"BTCUSDT", Side.Buy, 100, 1, 0, 0⟩ 121 true
      (by norm_num) (by norm_num) (by norm_num) (by norm_num)⟩

/-- C3: whenever the stored level is 0 and the freshly computed level is at
least one step (P&L has reached one full step), the cycle issues two stop
mutations in order: first to the break-even price (`calculate_sl_price`
at level 0, i.e. exactly the entry price), then to the target level's
price — even when the target level jumps past the first step. -/
theorem trailing_first_transition (st : PosRecord) (price : ℚ) (ok : Bool)
    (hp : price ≠ 0) (he : st.entry_price ≠ 0)
    (hlvl : st.current_sl_level = 0)
    (hpnl : calculate_pnl_percent st.entry_price price st.side ≥ (20 : ℚ)) :
    (20 : ℤ) ≤
      target_sl_level (calculate_pnl_percent st.entry_price price st.side) 20 ∧
    (check_position_step 20 st price ok).stops =
      [calculate_sl_price st.entry_price 0 st.side,
       calculate_sl_price st.entry_price
         ((target_sl_level (calculate_pnl_percent st.entry_price price st.side) 20 :
           ℤ) : ℚ) st.side] := by
  set pnl := calculate_pnl_percent st.entry_price price st.side with hpnl_def
  have htge : (20 : ℤ) ≤ target_sl_level pnl 20 :=
    target_sl_level_ge pnl 20 (by norm_num) (by exact_mod_cast hpnl)
  have hact : target_sl_level pnl 20 > st.current_sl_level ∧
      pnl ≥ ((20 : ℤ) : ℚ) := by
    rw [hlvl]
    exact ⟨lt_of_lt_of_le (by norm_num) htge, by exact_mod_cast hpnl⟩
  have hpos : 0 < target_sl_level pnl 20 := lt_of_lt_of_le (by norm_num) htge
  refine ⟨htge, ?_⟩
  rw [check_position_step_action 20 st price ok hp he hact hpos]
  have hpre : st.current_sl_level = 0 ∧ target_sl_level pnl 20 ≥ 20 := ⟨hlvl, htge⟩
  show (if st.current_sl_level = 0 ∧ target_sl_level pnl 20 ≥ 20 then
      [calculate_sl_price st.entry_price 0 st.side]
    else []) ++
    [calculate_sl_price st.entry_price ((target_sl_level pnl 20 : ℤ) : ℚ) st.side] =
    [calculate_sl_price st.entry_price 0 st.side,
     calculate_sl_price st.entry_price ((target_sl_level pnl 20 : ℤ) : ℚ) st.side]
  rw [if_pos hpre]
  rfl

/-- Witness for C3, following the spec's concrete scenario: LONG entry 100,
step 20, mark prices 105, 121, 141 (P&L 5%, 21%, 41%).  Poll 1 issues no
mutation; poll 2 issues break-even (100) then the 20%-level price (120) in
that order within the same cycle (obtained from `trailing_first_transition`
applied to the state poll 1 leaves behind); poll 3 issues 140 only. -/
theorem trailing_first_transition_witness :
    ((121 : ℚ) ≠ 0 ∧
      (⟨"BTCUSDT", Side.Buy, 100, 1, 0, 5⟩ : PosRecord).entry_price ≠ 0 ∧
      (⟨"BTCUSDT", Side.Buy, 100, 1, 0, 5⟩ : PosRecord).current_sl_level = 0 ∧
      calculate_pnl_percent 100 121 Side.Buy ≥ (20 : ℚ)) ∧
    ((20 : ℤ) ≤ target_sl_level (calculate_pnl_percent 100 121 Side.Buy) 20 ∧
      (check_position_step 20 ⟨"BTCUSDT", Side.Buy, 100, 1, 0, 5⟩ 121 true).stops =
        [calculate_sl_price 100 0 Side.Buy,
         calculate_sl_price 100
           ((target_sl_level (calculate_pnl_percent 100 121 Side.Buy) 20 : ℤ) : ℚ)
           Side.Buy]) ∧
    (check_position_step 20 ⟨"BTCUSDT", Side.Buy, 100, 1, 0, 0⟩ 105 true).stops = [] ∧
    (check_position_step 20 ⟨"BTCUSDT", Side.Buy, 100, 1, 0, 0⟩ 105 true).state =
      ⟨"BTCUSDT", Side.Buy, 100, 1, 0, 5⟩ ∧
    (check_position_step 20 ⟨"BTCUSDT", Side.Buy, 100, 1, 0, 5⟩ 121 true).stops =
      [100, 120] ∧
    (check_position_step 20 ⟨"BTCUSDT", Side.Buy, 100, 1, 0, 5⟩ 121 true).state =
      ⟨"BTCUSDT", Side.Buy, 100, 1, 20, 21⟩ ∧
    (check_position_step 20 ⟨"BTCUSDT", Side.Buy, 100, 1, 20, 21⟩ 141 true).stops =
      [140] :=
  ⟨⟨by norm_num, by norm_num, by norm_num,
      by norm_num [calculate_pnl_percent]⟩,
    trailing_first_transition ⟨"BTCUSDT", Side.Buy, 100, 1, 0, 5⟩ 121 true
      (by norm_num) (by norm_num) (by norm_num)
      (by norm_num [calculate_pnl_percent]),
    by norm_num [check_position_step, calculate_pnl_percent, target_sl_level],
    by norm_num [check_position_step, calculate_pnl_percent, target_sl_level],
    by norm_num [check_position_step, calculate_pnl_percent, target_sl_level,
      calculate_sl_price],
    by norm_num [check_position_step, calculate_pnl_percent, target_sl_level],
    by norm_num [check_position_step, calculate_pnl_percent, target_sl_level,
      calculate_sl_price]⟩

/-- Error taxonomy of spec §7, used by the spec-side model of the PnL
calculator. -/
inductive PnlError
  | invalidInput
deriving DecidableEq, Repr

/-- Follows the spec's words (§4.1), for comparison with the code's
`calculate_pnl_percent`: "Fails with `InvalidInput` when `entry <= 0`". -/
def pnl_percent_spec (entry mark : ℚ) (side : Side) : Except PnlError ℚ :=
  if entry ≤ 0 then .error .invalidInput
  else
    match side with
    | .Buy => .ok ((mark - entry) / entry * 100)
    | .Sell => .ok ((entry - mark) / entry * 100)

/-- Counterexample for C7: at `entry = 0` the code returns the ordinary
value `0` (its `if entry_price == 0: return 0` branch) — it does not fail —
whereas the claim demands an `InvalidInput` failure for every
`entry ≤ 0`; for a negative entry the code even applies the side formula
(entry −100, mark −90, LONG yields −10). -/
theorem pnl_invalid_input_counterexample :
    calculate_pnl_percent 0 49000 Side.Sell = 0 ∧
    pnl_percent_spec 0 49000 Side.Sell = Except.error PnlError.invalidInput ∧
    calculate_pnl_percent (-100) (-90) Side.Buy = -10 := by
  refine ⟨by norm_num [calculate_pnl_percent], ?_, by norm_num [calculate_pnl_percent]⟩
  norm_num [pnl_percent_spec]

/-- C7 as amended: for every `entry ≠ 0` the code returns
`(mark − entry)/entry · 100` for LONG (`Buy`) and `(entry − mark)/entry · 100`
for SHORT (`Sell`) — entry 50000, mark 49000, SHORT gives exactly 2, and
`mark = entry` gives 0 — while at `entry = 0` it returns 0 instead of
failing: there is no `InvalidInput` failure path. -/
theorem pnl_percent_formula (entry mark : ℚ) (side : Side) (h : entry ≠ 0) :
    (side = Side.Buy →
      calculate_pnl_percent entry mark side = (mark - entry) / entry * 100) ∧
    (side = Side.Sell →
      calculate_pnl_percent entry mark side = (entry - mark) / entry * 100) ∧
    (mark = entry → calculate_pnl_percent entry mark side = 0) ∧
    calculate_pnl_percent 50000 49000 Side.Sell = 2 ∧
    (∀ m : ℚ, ∀ s : Side, calculate_pnl_percent 0 m s = 0) := by
  refine ⟨?_, ?_, ?_, by norm_num [calculate_pnl_percent], ?_⟩
  · intro hs
    subst hs
    simp [calculate_pnl_percent, h]
  · intro hs
    subst hs
    simp [calculate_pnl_percent, h]
  · intro hm
    subst hm
    cases side <;> simp [calculate_pnl_percent, h]
  · intro m s
    simp [calculate_pnl_percent]

/-- Witness for C7 (amended): the SHORT example of the spec, entry 50000,
mark 49000. -/
theorem pnl_percent_formula_witness :
    (50000 : ℚ) ≠ 0 ∧
    ((Side.Sell = Side.Buy →
      calculate_pnl_percent 50000 49000 Side.Sell = (49000 - 50000) / 50000 * 100) ∧
    (Side.Sell = Side.Sell →
      calculate_pnl_percent 50000 49000 Side.Sell = (50000 - 49000) / 50000 * 100) ∧
    ((49000 : ℚ) = 50000 → calculate_pnl_percent 50000 49000 Side.Sell = 0) ∧
    calculate_pnl_percent 50000 49000 Side.Sell = 2 ∧
    (∀ m : ℚ, ∀ s : Side, calculate_pnl_percent 0 m s = 0)) :=
  ⟨by norm_num, pnl_percent_formula 50000 49000 Side.Sell (by norm_num)⟩

/-! ### src/trading_strategy.py — TPManager (staged take-profit) -/

/-- Side string of the strategy layer: `"LONG"` or `"SHORT"`. -/
inductive StratSide
  | LONG
  | SHORT
deriving DecidableEq, Repr

/-- `config.TP_PERCENTAGES` (src/config.py line 66): close 20% at each of
the five TP levels. -/
def TP_PERCENTAGES : List ℚ := [20, 20, 20, 20, 20]

/-- One element of the list built by `TPManager.calculate_tp_levels`:
`{'level': i+1, 'price': entry*mult, 'percentage': tp_percentages[i]}`. -/
structure TPLevel where
  level : ℕ
  price : ℚ
  percentage : ℚ
deriving DecidableEq, Repr

/-- `TPManager.calculate_tp_levels` (lines 495-525) on its default path
(no `target_profits` argument), the only path exercised by
`check_and_execute_tp` (line 543): five levels at ±2%, 4%, 6%, 8%, 10%
from entry. -/
def calculate_tp_levels (entry : ℚ) (side : StratSide) : List TPLevel :=
  let multipliers : List ℚ :=
    if side = StratSide.LONG then [102/100, 104/100, 106/100, 108/100, 110/100]
    else [98/100, 96/100, 94/100, 92/100, 90/100]
  multipliers.enum.map (fun im => ⟨im.1 + 1, entry * im.2, TP_PERCENTAGES.getD im.1 0⟩)

/-- One row of the `tp_records` table for a trade, as written by
`db.save_tp_record` (lines 567-574). -/
structure TPRecord where
  tp_level : ℕ
  price : ℚ
  volume_closed : ℚ
  percentage : ℚ
  pnl : ℚ
deriving DecidableEq, Repr

/-- The fields of the `trade` dict that `check_and_execute_tp` reads. -/
structure Trade where
  entry_price : ℚ
  side : StratSide
  volume : ℚ
deriving DecidableEq, Repr

/-- The dict returned by `check_and_execute_tp` on a successful TP. -/
structure TPResult where
  tp_level : ℕ
  price : ℚ
  volume_closed : ℚ
  pnl : ℚ
deriving DecidableEq, Repr

/-- Result of one `check_and_execute_tp` call: the `tp_records` rows for the
trade after the call, the returned dict, and whether
`move_stop_to_entry` was called. -/
structure TPOutcome where
  records : List TPRecord
  result : Option TPResult
  moved_stop_to_entry : Bool
deriving DecidableEq, Repr

/-- `TPManager.check_and_execute_tp` (lines 527-589).  `records` is what
`_get_executed_tps` returns from the database for this trade (rows ordered
by `tp_level`; under this code they are appended in level order, so the
accumulated list is already sorted).  `closeOk` is the success flag of the
`close_partial` exchange call.  The Python `tp_levels[next_tp_level - 1]`
index is always in range because `next_tp_level ≤ 5` is checked first and
the level list has five entries; `getD`'s default is therefore never
used. -/
def check_and_execute_tp (trade : Trade) (records : List TPRecord)
    (current_price : ℚ) (closeOk : Bool) : TPOutcome :=
  let next_tp_level := records.length + 1
  if next_tp_level > 5 then ⟨records, none, false⟩
  else
    let tp_levels := calculate_tp_levels trade.entry_price trade.side
    let current_tp := tp_levels.getD (next_tp_level - 1) ⟨0, 0, 0⟩
    let tp_hit := (trade.side = StratSide.LONG ∧ current_price ≥ current_tp.price) ∨
      (trade.side = StratSide.SHORT ∧ current_price ≤ current_tp.price)
    if ¬ tp_hit then ⟨records, none, false⟩
    else if closeOk then
      let volume := trade.volume
      let remaining_volume := volume * (1 - (records.map (·.percentage)).sum / 100)
      let closed_volume := remaining_volume * (current_tp.percentage / 100)
      let pnl_pct := |current_price - trade.entry_price| / trade.entry_price * 100
      let pnl := closed_volume * pnl_pct / 100
      ⟨records ++
          [⟨next_tp_level, current_price, closed_volume, current_tp.percentage, pnl⟩],
        some ⟨next_tp_level, current_price, closed_volume, pnl⟩,
        next_tp_level == 1⟩
    else ⟨records, none, false⟩

/-- The `tp_records` rows accumulated over a sequence of
`(mark price, close_partial success)` polls, one `check_and_execute_tp`
call per poll (the only call per trade per cycle, `main.py` line 359). -/
def run_tp (trade : Trade) (records : List TPRecord)
    (polls : List (ℚ × Bool)) : List TPRecord :=
  polls.foldl (fun recs p => (check_and_execute_tp trade recs p.1 p.2).records) records

/-- Case analysis of one `check_and_execute_tp` call: either the records
are unchanged, or exactly one record is appended; the appended record
carries the next tier index `records.length + 1`, the configured
percentage of that tier, and a closed volume computed from the code's
remaining estimate `volume * (1 − Σ executed percentages / 100)`. -/
theorem check_and_execute_tp_cases (trade : Trade) (records : List TPRecord)
    (price : ℚ) (ok : Bool) :
    (check_and_execute_tp trade records price ok).records = records ∨
    ∃ r : TPRecord,
      (check_and_execute_tp trade records price ok).records = records ++ [r] ∧
      r.tp_level = records.length + 1 ∧
      r.percentage = ((calculate_tp_levels trade.entry_price trade.side).getD
        records.length ⟨0, 0, 0⟩).percentage ∧
      r.volume_closed =
        trade.volume * (1 - (records.map (·.percentage)).sum / 100) *
          (r.percentage / 100) := by
  by_cases h1 : records.length + 1 > 5
  · left
    simp only [check_and_execute_tp, if_pos h1]
  · by_cases h2 : (trade.side = StratSide.LONG ∧
        price ≥ ((calculate_tp_levels trade.entry_price trade.side).getD
          (records.length + 1 - 1) ⟨0, 0, 0⟩).price) ∨
      (trade.side = StratSide.SHORT ∧
        price ≤ ((calculate_tp_levels trade.entry_price trade.side).getD
          (records.length + 1 - 1) ⟨0, 0, 0⟩).price)
    · cases ok with
      | false =>
        left
        simp only [check_and_execute_tp, if_neg h1]
        rw [if_neg (not_not_intro h2)]
        simp
      | true =>
        right
        refine ⟨⟨records.length + 1, price,
          trade.volume * (1 - (records.map (·.percentage)).sum / 100) *
            (((calculate_tp_levels trade.entry_price trade.side).getD
              (records.length + 1 - 1) ⟨0, 0, 0⟩).percentage / 100),
          ((calculate_tp_levels trade.entry_price trade.side).getD
            (records.length + 1 - 1) ⟨0, 0, 0⟩).percentage,
          trade.volume * (1 - (records.map (·.percentage)).sum / 100) *
              (((calculate_tp_levels trade.entry_price trade.side).getD
                (records.length + 1 - 1) ⟨0, 0, 0⟩).percentage / 100) *
            (|price - trade.entry_price| / trade.entry_price * 100) / 100⟩,
          ?_, rfl, ?_, ?_⟩
        · simp only [check_and_execute_tp, if_neg h1]
          rw [if_neg (not_not_intro h2)]
          simp
        · simp
        · rfl
    · left
      simp only [check_and_execute_tp, if_neg h1]
      rw [if_pos h2]

theorem run_tp_append (trade : Trade) (recs : List TPRecord)
    (polls more : List (ℚ × Bool)) :
    run_tp trade recs (polls ++ more) = run_tp trade (run_tp trade recs polls) more := by
  simp [run_tp, List.foldl_append]

theorem check_and_execute_tp_records_extends (trade : Trade)
    (records : List TPRecord) (price : ℚ) (ok : Bool) :
    records <+: (check_and_execute_tp trade records price ok).records := by
  rcases check_and_execute_tp_cases trade records price ok with h | ⟨r, h, _, _, _⟩
  · rw [h]
  · rw [h]
    exact List.prefix_append records [r]

theorem run_tp_extends (trade : Trade) (recs : List TPRecord)
    (polls : List (ℚ × Bool)) : recs <+: run_tp trade recs polls := by
  induction polls generalizing recs with
  | nil => exact List.prefix_refl recs
  | cons p ps ih =>
    simp only [run_tp, List.foldl_cons]
    exact (check_and_execute_tp_records_extends trade recs p.1 p.2).trans
      (ih (check_and_execute_tp trade recs p.1 p.2).records)

/-- Invariant of the accumulated `tp_records` rows: starting from rows whose
levels are exactly `1, 2, …, n`, any number of polls keeps the level list of
the form `1, 2, …, m` (the next record always gets level `length + 1`). -/
theorem run_tp_levels_eq (trade : Trade) (polls : List (ℚ × Bool))
    (records : List TPRecord)
    (h : records.map (·.tp_level) = List.range' 1 records.length) :
    (run_tp trade records polls).map (·.tp_level) =
      List.range' 1 (run_tp trade records polls).length := by
  induction polls generalizing records with
  | nil => simpa [run_tp]
  | cons p ps ih =>
    simp only [run_tp, List.foldl_cons]
    apply ih
    rcases check_and_execute_tp_cases trade records p.1 p.2 with hc | ⟨r, hc, hlvl, _, _⟩
    · rw [hc]
      exact h
    · rw [hc]
      simp only [List.map_append, List.map_cons, List.map_nil, List.length_append,
        List.length_cons, List.length_nil, Nat.add_zero]
      rw [h, hlvl]
      have hr := @List.range'_concat 1 1 records.length
      simp only [one_mul] at hr
      rw [hr]
      simp [Nat.add_comm]

/-- C4: over every price path (with arbitrary `close_partial` outcomes),
each tier index appears in the recorded executed tiers at most once, and
the records only ever grow — a fired tier stays fired and is never
re-armed, no matter how many further polls observe the price beyond its
threshold. -/
theorem tp_tier_at_most_once (trade : Trade) (polls : List (ℚ × Bool)) :
    ((run_tp trade [] polls).map (·.tp_level)).Nodup ∧
    ∀ more : List (ℚ × Bool),
      run_tp trade [] polls <+: run_tp trade [] (polls ++ more) := by
  constructor
  · have h := run_tp_levels_eq trade polls [] (by simp)
    rw [h]
    exact List.nodup_range' _ _ 1 (by norm_num)
  · intro more
    rw [run_tp_append]
    exact run_tp_extends trade (run_tp trade [] polls) more

/-- Counterexample for C5 (the spec's own gap scenario): entry 100 LONG,
original size 10, tiers at 102 and 104; the mark price gaps to 105, beyond
both un-executed tiers, yet the single `check_and_execute_tp` call of that
poll cycle records tier 1 only — tier 2 does not fire in the same cycle. -/
theorem tp_gap_single_cycle_counterexample :
    (105 : ℚ) ≥ ((calculate_tp_levels 100 StratSide.LONG).getD 0 ⟨0, 0, 0⟩).price ∧
    (105 : ℚ) ≥ ((calculate_tp_levels 100 StratSide.LONG).getD 1 ⟨0, 0, 0⟩).price ∧
    ((check_and_execute_tp ⟨100, StratSide.LONG, 10⟩ [] 105 true).records).map
      (·.tp_level) = [1] ∧
    2 ∉ ((check_and_execute_tp ⟨100, StratSide.LONG, 10⟩ [] 105 true).records).map
      (·.tp_level) := by
  have h : ((check_and_execute_tp ⟨100, StratSide.LONG, 10⟩ [] 105 true).records).map
      (·.tp_level) = [1] := by
    norm_num [check_and_execute_tp, calculate_tp_levels, TP_PERCENTAGES]
  refine ⟨?_, ?_, h, ?_⟩
  · norm_num [calculate_tp_levels, TP_PERCENTAGES]
  · norm_num [calculate_tp_levels, TP_PERCENTAGES]
  · rw [h]
    simp

/-- C5 as amended: one `check_and_execute_tp` call fires at most one tier —
the lowest not-yet-executed index, `len(executed) + 1` — even when the
price has gapped past several tiers; the remaining crossed tiers fire one
per subsequent poll, in ascending order (the gap scenario needs a second
poll at 105 to fire tier 2). -/
theorem tp_one_tier_per_cycle :
    (∀ (trade : Trade) (records : List TPRecord) (price : ℚ) (ok : Bool),
      (check_and_execute_tp trade records price ok).records = records ∨
      ∃ r : TPRecord,
        (check_and_execute_tp trade records price ok).records = records ++ [r] ∧
        r.tp_level = records.length + 1) ∧
    (run_tp ⟨100, StratSide.LONG, 10⟩ [] [(105, true), (105, true)]).map
      (·.tp_level) = [1, 2] := by
  constructor
  · intro trade records price ok
    rcases check_and_execute_tp_cases trade records price ok with h | ⟨r, h1, h2, _, _⟩
    · exact Or.inl h
    · exact Or.inr ⟨r, h1, h2⟩
  · norm_num [run_tp, check_and_execute_tp, calculate_tp_levels, TP_PERCENTAGES]

/-- Counterexample for C6: with entry 100 LONG, original size 10 and the
five configured 20% tiers, a price path that fires all five tiers records
closed volumes 2, 1.6, 1.2, 0.8, 0.4: tier 2 closes 1.6, not
`size_fraction · original_size = 2`, and after all tiers (whose fractions
sum to 100%) have fired the un-closed remainder is 4, not 0. -/
theorem tp_close_size_counterexample :
    (run_tp ⟨100, StratSide.LONG, 10⟩ []
        [(111, true), (111, true), (111, true), (111, true), (111, true)]).map
      (·.volume_closed) = [2, 8/5, 6/5, 4/5, 2/5] ∧
    ((run_tp ⟨100, StratSide.LONG, 10⟩ []
        [(111, true), (111, true), (111, true), (111, true), (111, true)]).map
      (·.percentage)).sum = 100 ∧
    (8/5 : ℚ) ≠ 20 / 100 * 10 ∧
    10 - ((run_tp ⟨100, StratSide.LONG, 10⟩ []
        [(111, true), (111, true), (111, true), (111, true), (111, true)]).map
      (·.volume_closed)).sum = 4 ∧
    (4 : ℚ) ≠ 0 := by
  refine ⟨?_, ?_, by norm_num, ?_, by norm_num⟩ <;>
    norm_num [run_tp, check_and_execute_tp, calculate_tp_levels, TP_PERCENTAGES]

/-- C6 as amended: each fired tier's recorded partial-close size equals
`tier.percentage/100` of the code's remaining estimate
`original_volume · (1 − Σ previously-recorded percentages / 100)` — not of
the original size — so with the five 20% tiers the closes are
2, 1.6, 1.2, 0.8, 0.4 of an original 10 and the un-closed remainder after
all tiers is 4. -/
theorem tp_close_size_formula :
    (∀ (trade : Trade) (records : List TPRecord) (price : ℚ) (ok : Bool),
      (check_and_execute_tp trade records price ok).records = records ∨
      ∃ r : TPRecord,
        (check_and_execute_tp trade records price ok).records = records ++ [r] ∧
        r.volume_closed =
          trade.volume * (1 - (records.map (·.percentage)).sum / 100) *
            (r.percentage / 100)) ∧
    (run_tp ⟨100, StratSide.LONG, 10⟩ []
        [(111, true), (111, true), (111, true), (111, true), (111, true)]).map
      (·.volume_closed) = [2, 8/5, 6/5, 4/5, 2/5] ∧
    10 - ([2, 8/5, 6/5, 4/5, 2/5] : List ℚ).sum = 4 := by
  refine ⟨?_, ?_, by norm_num⟩
  · intro trade records price ok
    rcases check_and_execute_tp_cases trade records price ok with h | ⟨r, h1, _, _, h3⟩
    · exact Or.inl h
    · exact Or.inr ⟨r, h1, h3⟩
  · norm_num [run_tp, check_and_execute_tp, calculate_tp_levels, TP_PERCENTAGES]

/-! ### src/trading_strategy.py — RiskManager and the signal pipeline -/

/-- `RiskManager.min_risk_reward` (`__init__`, line 40): 1.5. -/
def min_risk_reward : ℚ := 3 / 2

/-- `RiskManager.validate_risk_reward` (lines 78-98): returns
`(rr_ratio >= min_risk_reward, rr_ratio)`, or `(False, 0)` when the
computed risk is ≤ 0. -/
def validate_risk_reward (entry stop_loss take_profit : ℚ) (side : StratSide) :
    Bool × ℚ :=
  let risk :=
    if side = StratSide.LONG then entry - stop_loss else stop_loss - entry
  let reward :=
    if side = StratSide.LONG then take_profit - entry else entry - take_profit
  if risk ≤ 0 then (false, 0)
  else
    let rr := reward / risk
    (decide (rr ≥ min_risk_reward), rr)

/-- C8: the gate's boolean is `false` (the proposal is rejected) exactly
when the risk is ≤ 0 (stop on the wrong side of entry) or the
reward/risk ratio is below `min_risk_reward`, where risk is
`entry − stop` for LONG and `stop − entry` for SHORT and reward is
`take_profit − entry` for LONG and `entry − take_profit` for SHORT; the
spec's concrete case entry 100, stop 99, TP 100.5, LONG yields
exactly `(false, 1/2)`. -/
theorem entry_gate_risk_reward :
    (∀ (entry stop_loss take_profit : ℚ) (side : StratSide),
      (validate_risk_reward entry stop_loss take_profit side).1 = false ↔
        ((if side = StratSide.LONG then entry - stop_loss else stop_loss - entry) ≤ 0 ∨
          (if side = StratSide.LONG then take_profit - entry else entry - take_profit) /
              (if side = StratSide.LONG then entry - stop_loss else stop_loss - entry) <
            min_risk_reward)) ∧
    validate_risk_reward 100 99 (201 / 2) StratSide.LONG = (false, 1 / 2) := by
  constructor
  · intro entry stop_loss take_profit side
    cases side with
    | LONG =>
      by_cases hrisk : entry - stop_loss ≤ 0
      · simp [validate_risk_reward, hrisk]
      · simp [validate_risk_reward, hrisk, not_le]
    | SHORT =>
      by_cases hrisk : stop_loss - entry ≤ 0
      · simp [validate_risk_reward, hrisk]
      · simp [validate_risk_reward, hrisk, not_le]
  · norm_num [validate_risk_reward, min_risk_reward, Prod.ext_iff]

/-- `RiskManager.calculate_position_size` (lines 63-76).  The Python body
divides by `stop_loss_percent / 100`; `stop_loss_percent = 0` raises an
uncaught `ZeroDivisionError`, modelled as `none`. -/
def calculate_position_size (balance stop_loss_percent : ℚ) : Option ℚ :=
  if stop_loss_percent = 0 then none
  else
    let risk_amount := balance * (2 / 100)
    let position_size := risk_amount / (stop_loss_percent / 100)
    let max_position := balance * (5 / 100)
    some (min position_size max_position)

/-- The `side` string of the strategy layer, as used in
`f"OPEN_{signal.side}"`. -/
def stratSideStr : StratSide → String
  | .LONG => "LONG"
  | .SHORT => "SHORT"

/-- The fields of `telegram_signals.TradingSignal` read by the decision
path of `process_telegram_signal` (`leverage`, `source`, `timestamp` and
`raw_message` are only copied into persistence calls). -/
structure Signal where
  coin : String
  side : StratSide
  entries : List ℚ
  take_profits : List ℚ
  stop_loss : ℚ
  confidence : ℚ
deriving DecidableEq, Repr

/-- The decision-relevant fields of the `TradeDecision` dataclass
(lines 16-29; `reason`, `confidence`, `risk_level` and `leverage` are
informational strings/numbers copied verbatim and are omitted). -/
structure TradeDecision where
  should_trade : Bool
  action : String
  symbol : String
  volume : ℚ
  entry_price : Option ℚ
  take_profits : List ℚ
  stop_loss : Option ℚ
deriving DecidableEq, Repr

/-- The decision core of `TradingStrategy.process_telegram_signal`
(lines 123-244), with its collaborators abstracted: `can_trade` is the
outcome of `RiskManager.can_open_trade`, `prices` the close prices parsed
from the kline response, and `gemini_valid`/`gemini_confidence` the outcome
of `GeminiAnalyzer.validate_signal` (consulted only when both `prices` and
`signal.entries` are non-empty).  Python truthiness of `signal.stop_loss`
(a float) is `≠ 0`, and of the lists is non-emptiness.  An uncaught
`ZeroDivisionError` (division by a zero first entry, or
`calculate_position_size` with `stop_loss_percent = 0`) is modelled as
`none`. -/
def process_telegram_signal (signal : Signal) (balance : ℚ) (can_trade : Bool)
    (prices : List ℚ) (gemini_valid : Bool) (gemini_confidence : ℚ) :
    Option TradeDecision :=
  let skip : TradeDecision := ⟨false, "SKIP", signal.coin, 0, none, [], none⟩
  if ¬ can_trade then some skip
  else if prices ≠ [] ∧ signal.entries ≠ [] ∧
      (¬ gemini_valid ∨ gemini_confidence < 1 / 2) then some skip
  else if signal.entries ≠ [] ∧ signal.take_profits ≠ [] ∧ signal.stop_loss ≠ 0 ∧
      (validate_risk_reward (signal.entries.headD 0) signal.stop_loss
        (if signal.take_profits ≠ [] then signal.take_profits.headD 0
         else signal.entries.headD 0 * (105 / 100)) signal.side).1 = false then
    some skip
  else
    let volume? : Option ℚ :=
      if signal.entries ≠ [] ∧ signal.stop_loss ≠ 0 then
        if signal.entries.headD 0 = 0 then none
        else
          calculate_position_size balance
            (|signal.entries.headD 0 - signal.stop_loss| /
              signal.entries.headD 0 * 100)
      else calculate_position_size balance 3
    volume?.map fun v =>
      ⟨true, "OPEN_" ++ stratSideStr signal.side, signal.coin, v,
        (if signal.entries ≠ [] then some (signal.entries.headD 0) else none),
        signal.take_profits, some signal.stop_loss⟩

/-- C10: the sizing division is reachable with `stop_loss_percent = 0`.
A signal whose stop-loss equals its (non-zero) first entry and whose
take-profit list is empty passes the open-trade gate, skips the Gemini
check (no price history) and skips the risk/reward gate (empty
`take_profits` falsifies its guard), computes
`stop_loss_pct = |entry − stop|/entry·100 = 0`, and then
`calculate_position_size` divides by `0/100`: the pipeline crashes with
`ZeroDivisionError` (`none`).  With a non-empty take-profit list the same
stop is instead rejected by the risk/reward gate (risk ≤ 0). -/
theorem position_size_division_by_zero :
    process_telegram_signal ⟨"BTC", StratSide.LONG, [100], [], 100, 9 / 10⟩
      1000 true [] true 1 = none ∧
    (|(100 : ℚ) - 100| / 100 * 100 = 0) ∧
    calculate_position_size 1000 0 = none ∧
    process_telegram_signal ⟨"BTC", StratSide.LONG, [100], [110], 100, 9 / 10⟩
      1000 true [] true 1 =
      some ⟨false, "SKIP", "BTC", 0, none, [], none⟩ := by
  refine ⟨?_, by norm_num, by norm_num [calculate_position_size], ?_⟩
  · norm_num [process_telegram_signal, calculate_position_size]
  · norm_num [process_telegram_signal, validate_risk_reward, min_risk_reward]

/-! ### src/position_manager.py — the positions_state store -/

/-- The `side` string of a Bybit position dict. -/
def side_str : Side → String
  | .Buy => "Buy"
  | .Sell => "Sell"

/-- `PositionManager.get_position_key` (lines 23-25): `f"{symbol}_{side}"`. -/
def get_position_key (symbol : String) (side : Side) : String :=
  symbol ++ "_" ++ side_str side

/-- The fields of an exchange-reported position dict read by
`check_positions`; `float(pos.get('avgPrice') or pos.get('entry_price', 0))`
is modelled by the single `avgPrice` field. -/
structure Pos where
  symbol : String
  side : Side
  avgPrice : ℚ
  size : ℚ
  markPrice : ℚ
deriving DecidableEq, Repr

/-- `PositionManager.initialize_position_state` (lines 27-42):
get-or-create on the `positions_state` dict, modelled as an association
list in insertion order.  Returns the (possibly extended) dict and the
state record for the position's key.  A fresh record starts at
`current_sl_level = 0` and `highest_pnl_percent = 0`. -/
def initialize_position_state (m : List (String × PosRecord)) (pos : Pos) :
    List (String × PosRecord) × PosRecord :=
  let key := get_position_key pos.symbol pos.side
  match m.lookup key with
  | some st => (m, st)
  | none =>
    let st : PosRecord := ⟨pos.symbol, pos.side, pos.avgPrice, pos.size, 0, 0⟩
    (m ++ [(key, st)], st)

/-- In-place mutation of the dict entry at `key` (the Python code mutates
the shared `state` dict object). -/
def set_state (m : List (String × PosRecord)) (key : String) (st' : PosRecord) :
    List (String × PosRecord) :=
  m.map fun kv => if kv.1 = key then (kv.1, st') else kv

/-- The body of the `for pos in positions` loop of
`PositionManager.check_positions` (lines 82-158) acting on the
`positions_state` dict: skip positions with zero size or zero mark price,
create or fetch the state record, skip zero stored entry prices, then apply
the per-position trailing-stop step and store the updated record.  (Python
binds `state = self.initialize_position_state(pos)` once; the pure call is
repeated here with the identical value.) -/
def check_positions_step (acc : List (String × PosRecord)) (pb : Pos × Bool) :
    List (String × PosRecord) :=
  if pb.1.size = 0 ∨ pb.1.markPrice = 0 then acc
  else if (initialize_position_state acc pb.1).2.entry_price = 0 then
    (initialize_position_state acc pb.1).1
  else
    set_state (initialize_position_state acc pb.1).1
      (get_position_key pb.1.symbol pb.1.side)
      (check_position_step 20 (initialize_position_state acc pb.1).2
        pb.1.markPrice pb.2).state

/-- `PositionManager.check_positions` (lines 74-161) over the exchange's
position list.  Nothing is ever removed from `positions_state`. -/
def check_positions (m : List (String × PosRecord))
    (positions : List (Pos × Bool)) : List (String × PosRecord) :=
  positions.foldl check_positions_step m

theorem lookup_append_of_some {m tail : List (String × PosRecord)} {k : String}
    {v : PosRecord} (h : m.lookup k = some v) : (m ++ tail).lookup k = some v := by
  induction m with
  | nil => simp [List.lookup] at h
  | cons kv t ih =>
    obtain ⟨a, b⟩ := kv
    cases hbeq : (k == a) with
    | true =>
      simp only [List.cons_append, List.lookup_cons, hbeq] at h ⊢
      exact h
    | false =>
      simp only [List.cons_append, List.lookup_cons, hbeq] at h ⊢
      exact ih h

theorem set_state_cons (a : String) (b : PosRecord) (t : List (String × PosRecord))
    (key : String) (st' : PosRecord) :
    set_state ((a, b) :: t) key st' =
      (if a = key then (a, st') else (a, b)) :: set_state t key st' := rfl

theorem lookup_set_state_isSome (m : List (String × PosRecord)) (key : String)
    (st' : PosRecord) (k : String) :
    ((set_state m key st').lookup k).isSome = (m.lookup k).isSome := by
  induction m with
  | nil => simp [set_state]
  | cons kv t ih =>
    obtain ⟨a, b⟩ := kv
    rw [set_state_cons]
    by_cases hk : a = key
    · rw [if_pos hk]
      cases hbeq : (k == a) with
      | true => simp [List.lookup_cons, hbeq]
      | false => simp [List.lookup_cons, hbeq, ih]
    · rw [if_neg hk]
      cases hbeq : (k == a) with
      | true => simp [List.lookup_cons, hbeq]
      | false => simp [List.lookup_cons, hbeq, ih]

theorem initialize_position_state_lookup_isSome (m : List (String × PosRecord))
    (pos : Pos) (k : String) (h : (m.lookup k).isSome = true) :
    (((initialize_position_state m pos).1).lookup k).isSome = true := by
  unfold initialize_position_state
  cases hl : m.lookup (get_position_key pos.symbol pos.side) with
  | some st =>
    simpa [hl] using h
  | none =>
    simp only [hl]
    obtain ⟨v, hv⟩ := Option.isSome_iff_exists.mp h
    have := @lookup_append_of_some m
      [(get_position_key pos.symbol pos.side,
        (⟨pos.symbol, pos.side, pos.avgPrice, pos.size, 0, 0⟩ : PosRecord))] k v hv
    simp_all

theorem check_positions_step_lookup_isSome (acc : List (String × PosRecord))
    (pb : Pos × Bool) (k : String) (h : (acc.lookup k).isSome = true) :
    ((check_positions_step acc pb).lookup k).isSome = true := by
  unfold check_positions_step
  by_cases hskip : pb.1.size = 0 ∨ pb.1.markPrice = 0
  · rw [if_pos hskip]
    exact h
  · rw [if_neg hskip]
    by_cases hentry : (initialize_position_state acc pb.1).2.entry_price = 0
    · rw [if_pos hentry]
      exact initialize_position_state_lookup_isSome acc pb.1 k h
    · rw [if_neg hentry]
      rw [lookup_set_state_isSome]
      exact initialize_position_state_lookup_isSome acc pb.1 k h

theorem check_positions_lookup_isSome (m : List (String × PosRecord))
    (positions : List (Pos × Bool)) (k : String)
    (h : (m.lookup k).isSome = true) :
    (((check_positions m positions)).lookup k).isSome = true := by
  induction positions generalizing m with
  | nil => simpa [check_positions] using h
  | cons pb ps ih =>
    simp only [check_positions, List.foldl_cons]
    exact ih (check_positions_step m pb) (check_positions_step_lookup_isSome m pb k h)

/-- Counterexample for C9: track a LONG position (entry 100, mark 150, so
the stop level ratchets to 40).  A later poll in which the position has
disappeared from the exchange list (externally closed) leaves the record in
`positions_state` — it is not retired — and a subsequent position on the
same `(symbol, side)` key with entry 200 is handed the stale record with
entry price 100 instead of fresh state. -/
theorem position_record_not_retired_counterexample :
    (check_positions (check_positions []
        [(⟨"BTCUSDT", Side.Buy, 100, 1, 150⟩, true)]) []).lookup
      (get_position_key "BTCUSDT" Side.Buy) =
      some ⟨"BTCUSDT", Side.Buy, 100, 1, 40, 50⟩ ∧
    (initialize_position_state
        (check_positions (check_positions []
          [(⟨"BTCUSDT", Side.Buy, 100, 1, 150⟩, true)]) [])
        ⟨"BTCUSDT", Side.Buy, 200, 2, 200⟩).2.entry_price = 100 ∧
    (100 : ℚ) ≠ 200 := by
  have h1 : check_positions []
      [((⟨"BTCUSDT", Side.Buy, 100, 1, 150⟩ : Pos), true)] =
      [(get_position_key "BTCUSDT" Side.Buy,
        (⟨"BTCUSDT", Side.Buy, 100, 1, 40, 50⟩ : PosRecord))] := by
    norm_num [check_positions, check_positions_step, initialize_position_state,
      set_state, List.lookup, check_position_step, calculate_pnl_percent,
      target_sl_level, calculate_sl_price]
  have h2 : check_positions
      [(get_position_key "BTCUSDT" Side.Buy,
        (⟨"BTCUSDT", Side.Buy, 100, 1, 40, 50⟩ : PosRecord))] [] =
      [(get_position_key "BTCUSDT" Side.Buy,
        (⟨"BTCUSDT", Side.Buy, 100, 1, 40, 50⟩ : PosRecord))] := rfl
  rw [h1, h2]
  refine ⟨by simp [List.lookup_cons], ?_, by norm_num⟩
  simp [initialize_position_state, List.lookup_cons]

/-- C9 as amended: a `positions_state` record is mutated only by the
position manager's own check loop, but a record is never retired: every
key present before a `check_positions` cycle is still present after it
(whether or not the position still exists on the exchange), and
`initialize_position_state` hands a position whose key is already present
the stored record unchanged — a later position on the same
`(symbol, side)` key therefore starts from the stale record, not from
fresh state. -/
theorem positions_state_never_retired (m : List (String × PosRecord))
    (positions : List (Pos × Bool)) :
    (∀ k : String, (m.lookup k).isSome = true →
      ((check_positions m positions).lookup k).isSome = true) ∧
    (∀ (pos : Pos) (st : PosRecord),
      m.lookup (get_position_key pos.symbol pos.side) = some st →
      initialize_position_state m pos = (m, st)) := by
  refine ⟨fun k h => check_positions_lookup_isSome m positions k h, ?_⟩
  intro pos st h
  simp [initialize_position_state, h]

/-- Witness for C9 (amended): a single-record store, an empty poll (the
position is gone from the exchange), and a new position on the same key. -/
theorem positions_state_never_retired_witness :
    (([(get_position_key "BTCUSDT" Side.Buy,
        (⟨"BTCUSDT", Side.Buy, 100, 1, 40, 50⟩ : PosRecord))].lookup
      (get_position_key "BTCUSDT" Side.Buy)).isSome = true) ∧
    ((check_positions [(get_position_key "BTCUSDT" Side.Buy,
        (⟨"BTCUSDT", Side.Buy, 100, 1, 40, 50⟩ : PosRecord))] []).lookup
      (get_position_key "BTCUSDT" Side.Buy)).isSome = true ∧
    initialize_position_state
        [(get_position_key "BTCUSDT" Side.Buy,
          (⟨"BTCUSDT", Side.Buy, 100, 1, 40, 50⟩ : PosRecord))]
        ⟨"BTCUSDT", Side.Buy, 200, 2, 200⟩ =
      ([(get_position_key "BTCUSDT" Side.Buy,
          (⟨"BTCUSDT", Side.Buy, 100, 1, 40, 50⟩ : PosRecord))],
        ⟨"BTCUSDT", Side.Buy, 100, 1, 40, 50⟩) := by
  have hl : ([(get_position_key "BTCUSDT" Side.Buy,
      (⟨"BTCUSDT", Side.Buy, 100, 1, 40, 50⟩ : PosRecord))].lookup
      (get_position_key "BTCUSDT" Side.Buy)) =
      some ⟨"BTCUSDT", Side.Buy, 100, 1, 40, 50⟩ := by
    simp [List.lookup_cons]
  have h := positions_state_never_retired
    [(get_position_key "BTCUSDT" Side.Buy,
      (⟨"BTCUSDT", Side.Buy, 100, 1, 40, 50⟩ : PosRecord))] []
  refine ⟨by rw [hl]; rfl, h.1 (get_position_key "BTCUSDT" Side.Buy) (by rw [hl]; rfl),
    h.2 ⟨"BTCUSDT", Side.Buy, 200, 2, 200⟩ ⟨"BTCUSDT", Side.Buy, 100, 1, 40, 50⟩ hl⟩

end Kriptobot
